import Mathlib

/-!
# Verification of the boxo trustless verified-retrieval pipeline

Shallow embedding of the Go sources:

* `src/files/readerfile.go` (package `gateway` part): `proxyBlockstore` with
  `NewProxyBlockstore`, `fetch`, `Has`, `Get`, `GetSize`, `HashOnRead`,
  `Put`, `PutMany`, `AllKeysChan`, `DeleteBlock`, and the CAR `Fetch`.
* `src/unnamed/part_000` (package `main`): `fetcher` with `newFetcher`,
  `httpRequest`, `resolvePath`, and the CAR ingestion loop of
  `carToFileStream`.
* `src/bitswap/notifications/notifications.go`: the `Subscribe` delivery
  loop of the notification bus.

Network traffic, contexts and goroutines are abstracted: every HTTP
round-trip appears as an explicit `Except`-valued response argument, the
multihash function as an explicit `hash` parameter, and the `Subscribe`
goroutine as a pure recursion over the ordered sequence of values that
arrive on its channel.
-/

namespace Boxo

/-- A content identifier: prefix fields (version, codec, multihash code)
plus the digest bytes.  `cid.Prefix().Sum` rebuilds a CID with the same
prefix over fresh data. -/
structure Cid where
  version : Nat
  codec : Nat
  hashFn : Nat
  digest : List Nat
deriving DecidableEq, Repr

/-- Error values surfaced by the embedded code paths.  Each constructor
corresponds to one `error` value constructed (or propagated) in the Go
source. -/
inductive Err where
  /-- Embeds `blocks.ErrWrongHash`, returned by `proxyBlockstore.fetch` when
  validation fails. -/
  | errWrongHash : Err
  /-- Embeds `"http error from block gateway: %s"` in `proxyBlockstore.fetch`
  (carries only the status). -/
  | blockGatewayHttp (status : Nat) : Err
  /-- Embeds `"http error from car gateway: %s: %w"` in `proxyBlockstore.Fetch`
  (carries the status and the body text). -/
  | carGatewayHttp (status : Nat) (body : List Nat) : Err
  /-- Embeds `"GET %s error: %s: %s"` in `fetcher.httpRequest` (carries the
  status and the body text). -/
  | httpGetError (status : Nat) (body : List Nat) : Err
  /-- Embeds `util.ErrNotImplemented`, returned by the proxy store writes. -/
  | notImplemented : Err
  /-- Embeds `"missing gateway URLs to which to proxy"` in `NewProxyBlockstore`. -/
  | missingGateways : Err
  /-- Embeds `"a gateway must be set"` in `newFetcher`. -/
  | gatewayMustBeSet : Err
  /-- A transport-level failure (`http.Client.Do` returning an error);
  the message is opaque here. -/
  | transport (msg : String) : Err
  /-- An error produced inside `resolveIPNS` (record fetch, unmarshal or
  validation failure) or `resolveDNSLink`; opaque to the resolve loop. -/
  | resolution (msg : String) : Err
  /-- Embeds `path.NewImmutablePath` applied to a path that is still mutable. -/
  | pathNotImmutable : Err
  /-- An error returned by the go-car `BlockReader.Next`: a hash mismatch
  identifying the offending CID, or malformed framing (`none`). -/
  | carNext (offender : Option Cid) : Err
deriving DecidableEq, Repr

/-- A multihash implementation: maps a multihash function code and input
bytes to the digest bytes, or `none` when the code is unregistered
(`Prefix().Sum` returns an error in that case). -/
def HashImpl : Type := Nat → List Nat → Option (List Nat)

/-- Embeds `c.Prefix().Sum(data)`: hash `data` with the prefix's hash function and
rebuild a CID carrying the same version/codec/hash-function fields. -/
def cidSum (hash : HashImpl) (c : Cid) (data : List Nat) : Option Cid :=
  match hash c.hashFn data with
  | none => none
  | some d => some { version := c.version, codec := c.codec, hashFn := c.hashFn, digest := d }

/-- An immutable (CID, raw bytes) pair, as built by
`blocks.NewBlockWithCid(data, c)` (which, with debug checks off, always
succeeds and stores both fields verbatim). -/
structure Block where
  cid : Cid
  data : List Nat
deriving DecidableEq, Repr

/-- An HTTP response as seen by the embedded code: status code and body
bytes (`io.ReadAll` of the body is assumed to succeed). -/
structure HttpResponse where
  status : Nat
  body : List Nat
deriving DecidableEq, Repr

/-- The outcome of one HTTP round-trip: a transport error from
`http.Client.Do`, or a response. -/
def HttpOutcome : Type := Except Err HttpResponse

/-- Embeds `status` lies in the 2xx range.  Used only to state spec claims about
"any 2xx response"; the source never computes this predicate. -/
def is2xx (status : Nat) : Prop := 200 ≤ status ∧ status < 300

instance (status : Nat) : Decidable (is2xx status) := by
  unfold is2xx; infer_instance

/-! ## Proxy block store (`src/files/readerfile.go`, package `gateway`) -/

/-- The `proxyBlockstore` struct.  The `httpClient`, `rand` source and
transport tuning are not observable in the embedded behavior and are
omitted; gateway selection is abstracted by passing the chosen gateway's
response to each operation. -/
structure ProxyBlockstore where
  gatewayURL : List String
  validate : Bool
deriving DecidableEq, Repr

/-- Embeds `NewProxyBlockstore`: rejects an empty gateway list, otherwise builds
a store with `validate: true` ("Enables block validation by default"). -/
def NewProxyBlockstore (gatewayURL : List String) : Except Err ProxyBlockstore :=
  if gatewayURL.isEmpty then
    .error .missingGateways
  else
    .ok { gatewayURL := gatewayURL, validate := true }

/-- Embeds `proxyBlockstore.HashOnRead`: sets the `validate` field. -/
def ProxyBlockstore.HashOnRead (ps : ProxyBlockstore) (enabled : Bool) : ProxyBlockstore :=
  { ps with validate := enabled }

/-- Embeds `proxyBlockstore.fetch`: aborts on a transport error; errors on any
status other than 200 (carrying only the status); then, when `validate`
is set, recomputes the digest of the body with the CID's hash function
and compares the rebuilt CID to the requested one, returning
`blocks.ErrWrongHash` on failure; finally returns the block. -/
def ProxyBlockstore.fetch (ps : ProxyBlockstore) (hash : HashImpl) (c : Cid)
    (resp : HttpOutcome) : Except Err Block :=
  match resp with
  | .error e => .error e
  | .ok r =>
    if r.status ≠ 200 then
      .error (.blockGatewayHttp r.status)
    else if ps.validate then
      match cidSum hash c r.body with
      | none => .error .errWrongHash
      | some nc =>
        if nc = c then .ok { cid := c, data := r.body }
        else .error .errWrongHash
    else
      .ok { cid := c, data := r.body }

/-- Embeds `proxyBlockstore.Has`: performs a full fetch and reports
`(blk != nil, nil)` on success (the fetched block pointer is never nil on
the success path), `(false, err)` on failure. -/
def ProxyBlockstore.Has (ps : ProxyBlockstore) (hash : HashImpl) (c : Cid)
    (resp : HttpOutcome) : Except Err Bool :=
  match ps.fetch hash c resp with
  | .error e => .error e
  | .ok _ => .ok true

/-- Embeds `proxyBlockstore.Get`: fetches and returns the block. -/
def ProxyBlockstore.Get (ps : ProxyBlockstore) (hash : HashImpl) (c : Cid)
    (resp : HttpOutcome) : Except Err Block :=
  ps.fetch hash c resp

/-- Embeds `proxyBlockstore.GetSize`: fetches and returns `len(blk.RawData())`. -/
def ProxyBlockstore.GetSize (ps : ProxyBlockstore) (hash : HashImpl) (c : Cid)
    (resp : HttpOutcome) : Except Err Nat :=
  match ps.fetch hash c resp with
  | .error e => .error e
  | .ok blk => .ok blk.data.length

/-- Embeds `proxyBlockstore.Put`: always `util.ErrNotImplemented`; the receiver is
returned unchanged (the Go method mutates nothing). -/
def ProxyBlockstore.Put (ps : ProxyBlockstore) (_b : Block) :
    Except Err Unit × ProxyBlockstore :=
  (.error .notImplemented, ps)

/-- Embeds `proxyBlockstore.PutMany`: always `util.ErrNotImplemented`. -/
def ProxyBlockstore.PutMany (ps : ProxyBlockstore) (_bs : List Block) :
    Except Err Unit × ProxyBlockstore :=
  (.error .notImplemented, ps)

/-- Embeds `proxyBlockstore.AllKeysChan`: always `util.ErrNotImplemented`. -/
def ProxyBlockstore.AllKeysChan (ps : ProxyBlockstore) :
    Except Err (List Cid) × ProxyBlockstore :=
  (.error .notImplemented, ps)

/-- Embeds `proxyBlockstore.DeleteBlock`: always `util.ErrNotImplemented`. -/
def ProxyBlockstore.DeleteBlock (ps : ProxyBlockstore) (_c : Cid) :
    Except Err Unit × ProxyBlockstore :=
  (.error .notImplemented, ps)

/-- Embeds `proxyBlockstore.Fetch` (the `CarFetcher` method): aborts on transport
error; errors on any status other than 200, carrying the status and the
body text; otherwise hands the body to the callback. -/
def ProxyBlockstore.carFetch (resp : HttpOutcome)
    (cb : List Nat → Except Err Unit) : Except Err Unit :=
  match resp with
  | .error e => .error e
  | .ok r =>
    if r.status ≠ 200 then
      .error (.carGatewayHttp r.status r.body)
    else
      cb r.body

/-! ## CAR fetcher (`src/unnamed/part_000`, package `main`) -/

/-- The `fetcher` struct. -/
structure Fetcher where
  gateway : String
  limit : Int
  userAgent : String
deriving DecidableEq, Repr

/-- The two `fetcherOption` values defined in the source. -/
inductive FetcherOption where
  /-- Embeds `withUserAgent`: sets `userAgent`, never errors. -/
  | withUserAgent (userAgent : String) : FetcherOption
  /-- Embeds `withLimit`: sets `limit`, never errors. -/
  | withLimit (limit : Int) : FetcherOption
deriving DecidableEq, Repr

/-- Applying one option to the fetcher under construction.  Both defined
options return a nil error. -/
def FetcherOption.apply (f : Fetcher) : FetcherOption → Except Err Fetcher
  | .withUserAgent ua => .ok { f with userAgent := ua }
  | .withLimit l => .ok { f with limit := l }

/-- The option loop of `newFetcher`: apply options in order, aborting on
the first error. -/
def applyOptions (f : Fetcher) : List FetcherOption → Except Err Fetcher
  | [] => .ok f
  | o :: os =>
    match o.apply f with
    | .error e => .error e
    | .ok f' => applyOptions f' os

/-- Embeds `newFetcher`: rejects an empty gateway string; otherwise stores the
gateway with trailing `/` characters trimmed (`strings.TrimRight`) and
applies the options. -/
def newFetcher (gateway : String) (options : List FetcherOption) : Except Err Fetcher :=
  if gateway = "" then
    .error .gatewayMustBeSet
  else
    applyOptions
      { gateway := gateway.dropRightWhile (· = '/'), limit := 0, userAgent := "" }
      options

/-- Embeds `fetcher.httpRequest`: aborts on a transport error; converts any
status `>= 400` into an error carrying the status and the body text;
otherwise returns the body, wrapped in a `LimitReader` when `f.limit > 0`
(so at most `f.limit` bytes are readable). -/
def Fetcher.httpRequest (f : Fetcher) (resp : HttpOutcome) : Except Err (List Nat) :=
  match resp with
  | .error e => .error e
  | .ok r =>
    if r.status ≥ 400 then
      .error (.httpGetError r.status r.body)
    else if f.limit > 0 then
      .ok (r.body.take f.limit.toNat)
    else
      .ok r.body

/-! ## Path resolution (`fetcher.resolvePath`) -/

/-- A boxo `path.Path`: namespace (first segment), root (second segment)
and the remaining segments.  `p.Mutable()` holds exactly when the
namespace is `ipns`. -/
structure GoPath where
  ns : String
  root : String
  rest : List String
deriving DecidableEq, Repr

/-- Embeds `path.Path.Mutable()`: the namespace is `ipns`. -/
def GoPath.mutable (p : GoPath) : Bool := p.ns == "ipns"

/-- Embeds `path.NewImmutablePath`: fails on a still-mutable path, otherwise
returns the path itself (wrapped as an immutable path). -/
def newImmutablePath (p : GoPath) : Except Err GoPath :=
  if p.mutable then .error .pathNotImmutable else .ok p

/-- The collaborators used by the resolve loop, abstracted as an
environment: `ipns.NameFromString` on the root segment, `resolveIPNS`
(record fetch over HTTP, unmarshalling and validation) and
`resolveDNSLink` (DNS TXT lookup).  The loop in `resolvePath` only
observes their results. -/
structure ResolveEnv where
  parseName : String → Option String
  resolveIPNS : String → Except Err GoPath
  resolveDNSLink : GoPath → Except Err GoPath

/-- One iteration of the `resolvePath` loop body: parse
`p.Segments()[1]` as an IPNS name; on success resolve the IPNS record,
otherwise fall back to DNSLink resolution. -/
def resolveStep (env : ResolveEnv) (p : GoPath) : Except Err GoPath :=
  match env.parseName p.root with
  | some name => env.resolveIPNS name
  | none => env.resolveDNSLink p

/-- Embeds `fetcher.resolvePath`: `for p.Mutable() { ... }` followed by
`path.NewImmutablePath(p)`.  The Go loop is unbounded; `fuel` counts loop
iterations, and `none` means the loop has not terminated within `fuel`
iterations.  The source performs no progress check and no iteration
count. -/
def resolvePath (env : ResolveEnv) : Nat → GoPath → Option (Except Err GoPath)
  | 0, p =>
    if p.mutable then none
    else some (newImmutablePath p)
  | fuel + 1, p =>
    if p.mutable then
      match resolveStep env p with
      | .error e => some (.error e)
      | .ok p' => resolvePath env fuel p'
    else
      some (newImmutablePath p)

/-! ## CAR ingestion (`carToFileStream`, block loop) -/

/-- One framed section of the CAR stream as it reaches
`BlockReader.Next`: a (CID, bytes) frame, or malformed framing. -/
inductive CarFrame where
  | block (c : Cid) (data : List Nat) : CarFrame
  | corrupt : CarFrame
deriving DecidableEq, Repr

/-- Modelled from the spec: the go-car `BlockReader.Next` (external
library, not under `src/`) parses one framed block and verifies it —
"for every block, computes the digest using the hash function named in
that block's CID and compares to the embedded digest", surfacing
`HashMismatch` identifying the offending CID on failure and
`ArchiveCorrupt` on malformed framing. -/
def carNext (hash : HashImpl) : CarFrame → Except Err Block
  | .corrupt => .error (.carNext none)
  | .block c data =>
    match cidSum hash c data with
    | none => .error (.carNext (some c))
    | some nc =>
      if nc = c then .ok { cid := c, data := data }
      else .error (.carNext (some c))

/-- The temporary block store filled by the ingestion loop: a map from
CID to bytes, as a list of blocks with at most one entry per CID. -/
def Store : Type := List Block

instance : DecidableEq Store := by
  unfold Store; infer_instance

/-- Embeds `blockStore.Put`: write the block under its CID (map-update
semantics: an existing entry for the same CID is replaced). -/
def Store.put (st : Store) (b : Block) : Store :=
  (st.filter (fun x => x.cid ≠ b.cid)) ++ [b]

/-- CID membership in the store. -/
def Store.contains (st : Store) (c : Cid) : Bool :=
  st.any (fun x => x.cid = c)

/-- The block loop of `carToFileStream`: repeatedly `car.Next()`; a
verification or framing error aborts the whole operation immediately
(remaining frames are never read) but the store keeps every block already
put; end of stream ends the loop with no error.  Returns the error (if
any) and the store as left behind. -/
def carIngest (hash : HashImpl) : List CarFrame → Store → Option Err × Store
  | [], st => (none, st)
  | f :: rest, st =>
    match carNext hash f with
    | .error e => (some e, st)
    | .ok b => carIngest hash rest (st.put b)

/-! ## Notification bus (`src/bitswap/notifications/notifications.go`) -/

/-- A block as seen by the bus: its topic key (`block.Key()`) and data. -/
structure NBlock where
  key : String
  data : List Nat
deriving DecidableEq, Repr

/-- One event observed by the `Subscribe` goroutine's select: the
cancellation signal fired, the subscription channel was closed or
yielded a non-block value, or a block value arrived. -/
inductive SubEvent where
  | cancel : SubEvent
  | closedOrBad : SubEvent
  | val (b : NBlock) : SubEvent
deriving DecidableEq, Repr

/-- The delivery loop of `impl.Subscribe`: `for _ := range keys` — one
iteration per element of `keys` (duplicates included, distinctness never
checked) — each iteration forwards the next arriving value to the output
channel, and any cancellation/closed/non-block event ends the loop early.
The returned list is the sequence of blocks sent on the output channel
before it is closed; an empty tail of events means the goroutine is still
blocked waiting. -/
def subscribeLoop : List String → List SubEvent → List NBlock
  | [], _ => []
  | _ :: _, [] => []
  | _ :: ks, e :: es =>
    match e with
    | .val b => b :: subscribeLoop ks es
    | _ => []

/-- The wrapped pubsub bus (`pubsub.Pub`/`AddSub`): while the
subscription is registered, every published block whose key is one of the
subscribed topics arrives on its channel, in publish order. -/
def busDeliveries (keys : List String) (published : List NBlock) : List SubEvent :=
  (published.filter (fun b => keys.contains b.key)).map SubEvent.val

/-- The blocks a subscription on `keys` delivers when `published` is the
sequence of blocks published while it is live and its context is never
cancelled. -/
def subscribeDelivered (keys : List String) (published : List NBlock) : List NBlock :=
  subscribeLoop keys (busDeliveries keys published)

/-- How many delivered blocks carry a given key. -/
def countKey (k : String) (bs : List NBlock) : Nat :=
  (bs.filter (fun b => b.key = k)).length

/-! ## Concrete instances used by witnesses and counterexamples -/

/-- A concrete multihash implementation for witnesses: the digest of a
byte list is its one-byte prefix as a list. -/
def hashHead : HashImpl := fun _ data => some (data.take 1)

/-- The mutable path `/ipns/self`. -/
def selfPath : GoPath := { ns := "ipns", root := "self", rest := [] }

/-- A resolution environment in which every root parses as a name and
every IPNS record points back at `/ipns/self`: the adversarial
self-referential record of the spec. -/
def selfEnv : ResolveEnv where
  parseName := fun s => some s
  resolveIPNS := fun _ => .ok selfPath
  resolveDNSLink := fun p => .ok p

/-- An environment whose single IPNS record points at the immutable path
`/ipfs/r`. -/
def oneHopEnv : ResolveEnv where
  parseName := fun s => some s
  resolveIPNS := fun _ => .ok { ns := "ipfs", root := "r", rest := [] }
  resolveDNSLink := fun p => .ok p

/-! ## Helper lemmas -/

/-- On the self-referential environment the resolve loop never
terminates: no amount of fuel yields a result. -/
lemma resolvePath_self_none : ∀ fuel, resolvePath selfEnv fuel selfPath = none := by
  intro fuel
  induction fuel with
  | zero => rfl
  | succ n ih => simpa [resolvePath, resolveStep, selfEnv, selfPath] using ih

/-- Any path the resolve loop returns successfully is immutable. -/
lemma resolvePath_ok_immutable {env : ResolveEnv} {fuel : Nat} {p q : GoPath}
    (h : resolvePath env fuel p = some (.ok q)) : q.mutable = false := by
  induction fuel generalizing p with
  | zero =>
    by_cases hm : p.mutable <;>
      simp [resolvePath, newImmutablePath, hm] at h
    exact h ▸ (by simpa using hm)
  | succ n ih =>
    by_cases hm : p.mutable
    · simp only [resolvePath, hm, if_pos] at h
      cases hs : resolveStep env p with
      | error e => rw [hs] at h; simp at h
      | ok p' => rw [hs] at h; exact ih h
    · simp [resolvePath, newImmutablePath, hm] at h
      exact h ▸ (by simpa using hm)

/-- Resolving an already-immutable path returns it unchanged, with any
fuel. -/
lemma resolvePath_immutable_fix {env : ResolveEnv} {fuel : Nat} {p : GoPath}
    (h : p.mutable = false) : resolvePath env fuel p = some (.ok p) := by
  cases fuel <;> simp [resolvePath, newImmutablePath, h]

/-- The subscribe loop forwards at most one block per element of `keys`. -/
lemma subscribeLoop_length_le (keys : List String) (events : List SubEvent) :
    (subscribeLoop keys events).length ≤ keys.length := by
  induction keys generalizing events with
  | nil => simp [subscribeLoop]
  | cons k ks ih =>
    cases events with
    | nil => simp [subscribeLoop]
    | cons e es =>
      cases e with
      | val b => simpa [subscribeLoop] using ih es
      | cancel => simp [subscribeLoop]
      | closedOrBad => simp [subscribeLoop]

/-- Every block the subscribe loop forwards arrived as a value event. -/
lemma subscribeLoop_mem_events {keys : List String} {events : List SubEvent}
    {b : NBlock} (h : b ∈ subscribeLoop keys events) : SubEvent.val b ∈ events := by
  induction keys generalizing events with
  | nil => simp [subscribeLoop] at h
  | cons k ks ih =>
    cases events with
    | nil => simp [subscribeLoop] at h
    | cons e es =>
      cases e with
      | val b' =>
        simp only [subscribeLoop, List.mem_cons] at h
        rcases h with h | h
        · exact h ▸ List.mem_cons_self _ _
        · exact List.mem_cons_of_mem _ (ih h)
      | cancel => simp [subscribeLoop] at h
      | closedOrBad => simp [subscribeLoop] at h

/-! ## Claim theorems -/

/-- C1: for a per-block fetch with verification enabled, if hashing the
returned body with the CID's hash function does not produce the CID's
digest, the operation returns `blocks.ErrWrongHash` and never returns the
bytes to the caller. -/
theorem proxyFetch_hashMismatch_errWrongHash
    (ps : ProxyBlockstore) (hash : HashImpl) (c : Cid) (r : HttpResponse)
    (hval : ps.validate = true) (hst : r.status = 200)
    (hmis : hash c.hashFn r.body ≠ some c.digest) :
    ps.fetch hash c (.ok r) = .error .errWrongHash := by
  obtain ⟨cv, cc, ch, cd⟩ := c
  simp only [ProxyBlockstore.fetch, hst, hval, if_true, ne_eq, not_true_eq_false,
    if_false, ite_true]
  cases hh : hash ch r.body with
  | none => simp [cidSum, hh]
  | some d =>
    have hd : d ≠ cd := fun h => hmis (by simpa [hh] using congrArg some h)
    simp [cidSum, hh, Cid.mk.injEq, hd]

/-- Witness for C1: a concrete verifying store, CID and 200 response whose
body hashes to a digest different from the CID's. -/
theorem proxyFetch_hashMismatch_errWrongHash_witness :
    ProxyBlockstore.fetch { gatewayURL := ["https://gateway.example"], validate := true }
      hashHead { version := 1, codec := 85, hashFn := 0, digest := [9] }
      (.ok { status := 200, body := [3, 4] }) = .error .errWrongHash :=
  proxyFetch_hashMismatch_errWrongHash _ hashHead _ _ rfl rfl (by decide)

/-- C5: every write operation of the proxy block store — `Put`, `PutMany`,
`DeleteBlock` and the key enumeration `AllKeysChan` — fails with
`util.ErrNotImplemented` on every input and leaves the store unchanged. -/
theorem proxyWrites_notImplemented
    (ps : ProxyBlockstore) (b : Block) (bs : List Block) (c : Cid) :
    ps.Put b = (.error .notImplemented, ps) ∧
    ps.PutMany bs = (.error .notImplemented, ps) ∧
    ps.AllKeysChan = (.error .notImplemented, ps) ∧
    ps.DeleteBlock c = (.error .notImplemented, ps) :=
  ⟨rfl, rfl, rfl, rfl⟩

/-- C9: `Has` never answers `(false, nil)`: it fully fetches the block,
propagates any fetch error (in particular an HTTP 404 becomes an error,
never a clean negative), and returns `(true, nil)` exactly when the fetch
succeeds. -/
theorem proxyHas_never_false_nil
    (ps : ProxyBlockstore) (hash : HashImpl) (c : Cid) (resp : HttpOutcome) :
    ps.Has hash c resp ≠ .ok false ∧
    ((∃ b, ps.fetch hash c resp = .ok b) ↔ ps.Has hash c resp = .ok true) ∧
    (∀ r : HttpResponse, r.status = 404 →
      ps.Has hash c (.ok r) = .error (.blockGatewayHttp 404)) := by
  refine ⟨?_, Iff.intro ?_ ?_, ?_⟩
  · cases hf : ps.fetch hash c resp <;> simp [ProxyBlockstore.Has, hf]
  · rintro ⟨b, hb⟩
    simp [ProxyBlockstore.Has, hb]
  · intro h
    cases hf : ps.fetch hash c resp with
    | error e => simp [ProxyBlockstore.Has, hf] at h
    | ok b => exact ⟨b, rfl⟩
  · intro r hr
    simp [ProxyBlockstore.Has, ProxyBlockstore.fetch, hr]

/-- Witness for C9 at a concrete store, CID and 404 response. -/
theorem proxyHas_never_false_nil_witness :
    ProxyBlockstore.Has { gatewayURL := ["https://gateway.example"], validate := true }
      hashHead { version := 1, codec := 85, hashFn := 0, digest := [9] }
      (.ok { status := 404, body := [] }) = .error (.blockGatewayHttp 404) :=
  (proxyHas_never_false_nil { gatewayURL := ["https://gateway.example"], validate := true }
      hashHead { version := 1, codec := 85, hashFn := 0, digest := [9] }
      (.ok { status := 404, body := [] })).2.2
    { status := 404, body := [] } rfl

/-- C10: both constructors reject an empty gateway configuration —
`newFetcher` errors on the empty gateway string, `NewProxyBlockstore`
errors on the empty URL list — and every successfully constructed
instance came from a non-empty gateway configuration. -/
theorem constructors_reject_empty_gateway :
    (∀ opts, newFetcher "" opts = .error .gatewayMustBeSet) ∧
    (NewProxyBlockstore [] = .error .missingGateways) ∧
    (∀ g opts f, newFetcher g opts = .ok f → g ≠ "") ∧
    (∀ urls ps, NewProxyBlockstore urls = .ok ps → ps.gatewayURL ≠ []) := by
  refine ⟨fun opts => rfl, rfl, ?_, ?_⟩
  · intro g opts f h hg
    subst hg
    simp [newFetcher] at h
  · intro urls ps h
    by_cases hu : urls.isEmpty
    · simp [NewProxyBlockstore, hu] at h
    · simp [NewProxyBlockstore, hu] at h
      rw [← h]
      simpa [List.isEmpty_iff] using hu

/-- Witness for C10's implications at a concrete gateway configuration. -/
theorem constructors_reject_empty_gateway_witness :
    ({ gatewayURL := ["https://gateway.example"], validate := true } :
      ProxyBlockstore).gatewayURL ≠ [] :=
  constructors_reject_empty_gateway.2.2.2 ["https://gateway.example"] _ rfl

/-- When validation is on and the recomputed CID differs from the
requested one, `fetch` never succeeds. -/
lemma fetch_mismatch_not_ok {ps : ProxyBlockstore} {hash : HashImpl} {c : Cid}
    {r : HttpResponse} (hval : ps.validate = true)
    (hmis : cidSum hash c r.body ≠ some c) :
    ∀ b, ps.fetch hash c (.ok r) ≠ .ok b := by
  intro b hb
  unfold ProxyBlockstore.fetch at hb
  by_cases hst : r.status = 200
  · simp only [hst, ne_eq, not_true_eq_false, if_false, ite_false, hval, if_true, ite_true] at hb
    cases hcs : cidSum hash c r.body with
    | none => rw [hcs] at hb; exact Except.noConfusion hb
    | some nc =>
      rw [hcs] at hb
      by_cases hnc : nc = c
      · exact hmis (hcs.trans (congrArg some hnc))
      · simp [hnc] at hb
  · simp [hst] at hb

/-- C8: every store built by `NewProxyBlockstore` has validation on by
default, so (absent an explicit `HashOnRead(false)`) each read operation
— `Get`, `Has`, `GetSize` — refuses bytes whose recomputed CID does not
match the requested one. -/
theorem proxyBlockstore_validates_by_default
    (urls : List String) (ps : ProxyBlockstore)
    (hctor : NewProxyBlockstore urls = .ok ps)
    (hash : HashImpl) (c : Cid) (r : HttpResponse)
    (hmis : cidSum hash c r.body ≠ some c) :
    ps.validate = true ∧
    (∀ b, ps.Get hash c (.ok r) ≠ .ok b) ∧
    (∀ b, ps.Has hash c (.ok r) ≠ .ok b) ∧
    (∀ n, ps.GetSize hash c (.ok r) ≠ .ok n) := by
  have hps : ps = { gatewayURL := urls, validate := true } := by
    by_cases hu : urls.isEmpty
    · simp [NewProxyBlockstore, hu] at hctor
    · simp [NewProxyBlockstore, hu] at hctor
      exact hctor.symm
  subst hps
  refine ⟨rfl, fun b => fetch_mismatch_not_ok rfl hmis b, ?_, ?_⟩
  · intro b hb
    cases hf : ProxyBlockstore.fetch { gatewayURL := urls, validate := true }
        hash c (.ok r) with
    | error e => simp [ProxyBlockstore.Has, hf] at hb
    | ok blk => exact fetch_mismatch_not_ok rfl hmis blk hf
  · intro n hn
    cases hf : ProxyBlockstore.fetch { gatewayURL := urls, validate := true }
        hash c (.ok r) with
    | error e => simp [ProxyBlockstore.GetSize, hf] at hn
    | ok blk => exact fetch_mismatch_not_ok rfl hmis blk hf

/-- Witness for C8 at a concrete constructor call, CID and mismatching
response. -/
theorem proxyBlockstore_validates_by_default_witness :
    ({ gatewayURL := ["https://gateway.example"], validate := true } :
      ProxyBlockstore).validate = true :=
  (proxyBlockstore_validates_by_default ["https://gateway.example"] _ rfl hashHead
    { version := 1, codec := 85, hashFn := 0, digest := [9] }
    { status := 200, body := [3, 4] } (by decide)).1

/-- C6: path resolution is idempotent — whenever `resolvePath` succeeds
with `q`, resolving `q` again (with any fuel) returns `q` unchanged; in
particular an immutable path resolves to itself. -/
theorem resolvePath_idempotent (env : ResolveEnv) (fuel fuel2 : Nat) (p q : GoPath)
    (h : resolvePath env fuel p = some (.ok q)) :
    resolvePath env fuel2 q = some (.ok q) :=
  resolvePath_immutable_fix (resolvePath_ok_immutable h)

/-- Witness for C6: resolving `/ipns/n` through a one-hop record yields
`/ipfs/r`, and resolving that result again returns it unchanged. -/
theorem resolvePath_idempotent_witness :
    resolvePath oneHopEnv 0 { ns := "ipfs", root := "r", rest := [] } =
      some (.ok { ns := "ipfs", root := "r", rest := [] }) :=
  resolvePath_idempotent oneHopEnv 1 0 { ns := "ipns", root := "n", rest := [] } _ (by rfl)

/-- C2 counterexample: on a record pointing back at itself the loop body
returns the same mutable path (no progress is made), yet after 1000
iterations resolution has neither terminated nor produced any error — no
`ResolutionCycle` (or other) error is ever returned. -/
theorem resolve_no_cycle_detection_cex :
    resolveStep selfEnv selfPath = .ok selfPath ∧
    resolvePath selfEnv 1000 selfPath = none :=
  ⟨rfl, resolvePath_self_none 1000⟩

/-- C2 amended: the resolve loop checks neither progress nor an iteration
bound and has no `ResolutionCycle` error: any successful result is an
immutable path, but on a self-referential record the loop never
terminates, whatever the number of iterations allowed. -/
theorem resolve_loop_unbounded_no_cycle_error :
    (∀ fuel, resolvePath selfEnv fuel selfPath = none) ∧
    (∀ (env : ResolveEnv) (fuel : Nat) (p q : GoPath),
      resolvePath env fuel p = some (.ok q) → q.mutable = false) :=
  ⟨resolvePath_self_none, fun _ _ _ _ h => resolvePath_ok_immutable h⟩

/-- Witness for C2's amended statement at a concrete one-hop resolution. -/
theorem resolve_loop_unbounded_no_cycle_error_witness :
    GoPath.mutable { ns := "ipfs", root := "r", rest := [] } = false :=
  resolve_loop_unbounded_no_cycle_error.2 oneHopEnv 1
    { ns := "ipns", root := "n", rest := [] } _ (by rfl)

/-- C3 counterexample: `fetcher.httpRequest` accepts status 304 — not a
2xx status — as success and returns the body, while the per-block fetch
rejects status 206 — a 2xx status — as an error. -/
theorem http_status_handling_cex :
    Fetcher.httpRequest { gateway := "https://gateway.example", limit := 0, userAgent := "" }
      (.ok { status := 304, body := [7] }) = .ok [7] ∧
    ¬ is2xx 304 ∧
    ProxyBlockstore.fetch { gatewayURL := ["https://gateway.example"], validate := true }
      hashHead { version := 1, codec := 85, hashFn := 0, digest := [9] }
      (.ok { status := 206, body := [9] }) = .error (.blockGatewayHttp 206) ∧
    is2xx 206 :=
  ⟨rfl, by decide, rfl, by decide⟩

/-- C3 amended: `fetcher.httpRequest` treats any status below 400 as
success and converts any status of 400 or above into an error carrying
the status and body text; the proxy store's per-block fetch and CAR
fetch treat exactly status 200 as success, converting any other status
into an error carrying the status (and, for the CAR fetch, the body
text). -/
theorem http_status_handling_amended :
    (∀ (f : Fetcher) (r : HttpResponse), 400 ≤ r.status →
      f.httpRequest (.ok r) = .error (.httpGetError r.status r.body)) ∧
    (∀ (f : Fetcher) (r : HttpResponse), r.status < 400 →
      ∃ body, f.httpRequest (.ok r) = .ok body) ∧
    (∀ (ps : ProxyBlockstore) (hash : HashImpl) (c : Cid) (r : HttpResponse),
      r.status ≠ 200 → ps.fetch hash c (.ok r) = .error (.blockGatewayHttp r.status)) ∧
    (∀ (r : HttpResponse) (cb : List Nat → Except Err Unit), r.status ≠ 200 →
      ProxyBlockstore.carFetch (.ok r) cb = .error (.carGatewayHttp r.status r.body)) ∧
    (∀ (r : HttpResponse) (cb : List Nat → Except Err Unit), r.status = 200 →
      ProxyBlockstore.carFetch (.ok r) cb = cb r.body) := by
  refine ⟨?_, ?_, ?_, ?_, ?_⟩
  · intro f r h
    simp [Fetcher.httpRequest, h]
  · intro f r h
    by_cases hl : f.limit > 0
    · exact ⟨r.body.take f.limit.toNat, by simp [Fetcher.httpRequest, Nat.not_le.mpr h, hl]⟩
    · exact ⟨r.body, by simp [Fetcher.httpRequest, Nat.not_le.mpr h, hl]⟩
  · intro ps hash c r h
    simp [ProxyBlockstore.fetch, h]
  · intro r cb h
    simp [ProxyBlockstore.carFetch, h]
  · intro r cb h
    simp [ProxyBlockstore.carFetch, h]

/-- Witness for C3's amended statement at concrete responses. -/
theorem http_status_handling_amended_witness :
    Fetcher.httpRequest { gateway := "https://gateway.example", limit := 0, userAgent := "" }
      (.ok { status := 404, body := [1] }) = .error (.httpGetError 404 [1]) :=
  http_status_handling_amended.1
    { gateway := "https://gateway.example", limit := 0, userAgent := "" }
    { status := 404, body := [1] } (by decide)

/-- C4 counterexample: a subscription for keys `[k1, k2]` that sees the
block for `k1` published twice delivers that block twice — two
deliveries for one distinct key — and then retires with `k2` never
delivered. -/
theorem subscribe_duplicate_delivery_cex :
    subscribeDelivered ["k1", "k2"]
        [{ key := "k1", data := [0] }, { key := "k1", data := [0] }] =
      [{ key := "k1", data := [0] }, { key := "k1", data := [0] }] ∧
    countKey "k1" (subscribeDelivered ["k1", "k2"]
      [{ key := "k1", data := [0] }, { key := "k1", data := [0] }]) = 2 ∧
    countKey "k2" (subscribeDelivered ["k1", "k2"]
      [{ key := "k1", data := [0] }, { key := "k1", data := [0] }]) = 0 :=
  ⟨rfl, rfl, rfl⟩

/-- C4 amended: a subscription for `keys` delivers at most `len(keys)`
blocks in total (one per loop iteration, ending early on cancellation or
a closed channel), each for some requested key; deliveries are not
deduplicated per key, so repeated publishes for one key each consume an
iteration and other requested keys may never be delivered. -/
theorem subscribe_bounded_delivery_amended :
    (∀ (keys : List String) (events : List SubEvent),
      (subscribeLoop keys events).length ≤ keys.length) ∧
    (∀ (keys : List String) (published : List NBlock),
      ∀ b ∈ subscribeDelivered keys published, b.key ∈ keys) := by
  refine ⟨subscribeLoop_length_le, ?_⟩
  intro keys published b hb
  have hv := subscribeLoop_mem_events hb
  simp only [busDeliveries, List.mem_map, List.mem_filter] at hv
  obtain ⟨a, ⟨_, ha⟩, hab⟩ := hv
  cases hab
  simpa using ha

/-- Witness for C4's amended statement at a concrete subscription. -/
theorem subscribe_bounded_delivery_amended_witness :
    NBlock.key { key := "k1", data := [] } ∈ ["k1"] :=
  subscribe_bounded_delivery_amended.2 ["k1"] [{ key := "k1", data := [] }]
    { key := "k1", data := [] } (by decide)

/-- C7: ingesting an archive holding blocks [A, B, C] in order, where A
verifies and B fails verification, stores A, aborts with an error
identifying B, never processes C, and leaves A in the store (no
rollback). -/
theorem carIngest_abort_after_verified
    (hash : HashImpl) (cA cB cC : Cid) (dA dB dC : List Nat) (st : Store)
    (hA : cidSum hash cA dA = some cA)
    (hB : cidSum hash cB dB ≠ some cB) :
    carIngest hash [.block cA dA, .block cB dB, .block cC dC] st =
      (some (.carNext (some cB)), st.put { cid := cA, data := dA }) := by
  have hnA : carNext hash (.block cA dA) = .ok { cid := cA, data := dA } := by
    simp [carNext, hA]
  have hnB : carNext hash (.block cB dB) = .error (.carNext (some cB)) := by
    cases hcs : cidSum hash cB dB with
    | none => simp [carNext, hcs]
    | some nc =>
      have hnc : nc ≠ cB := fun h => hB (hcs.trans (congrArg some h))
      simp [carNext, hcs, hnc]
  simp [carIngest, hnA, hnB]

/-- Witness for C7 at a concrete archive whose middle block is
corrupted. -/
theorem carIngest_abort_after_verified_witness :
    carIngest hashHead
        [.block { version := 1, codec := 85, hashFn := 0, digest := [5] } [5, 6],
         .block { version := 1, codec := 85, hashFn := 0, digest := [9] } [8, 8],
         .block { version := 1, codec := 85, hashFn := 0, digest := [7] } [7]]
        ([] : Store) =
      (some (.carNext (some { version := 1, codec := 85, hashFn := 0, digest := [9] })),
        Store.put ([] : Store)
          { cid := { version := 1, codec := 85, hashFn := 0, digest := [5] }, data := [5, 6] }) :=
  carIngest_abort_after_verified hashHead _ _ _ _ _ _ _ (by decide) (by decide)

end Boxo
